import Mathlib

/- Verification of the lsp-client runtime: shallow embeddings of the
   pending-response tables (`lsp_client/utils/channel.py` and
   `lsp_client/channel.py`), the request path (`lsp_client/server/stdio.py`,
   `lsp_client/server/abc.py`), the client lifecycle
   (`lsp_client/client/abc.py`), the reference-counted file buffer
   (`lsp_client/capability/file_buffer.py` with its `open_files` callers),
   the capability merge (`lsp_client/utils/attrs.py`), the LSP framing codec
   (`lsp_client/server/jsonrpc.py`), the server-request dispatcher
   (`lsp_client/client/base.py`), the server fallback chain
   (`lsp_client/client/abc.py`) and path-to-URI translation
   (`lsp_client/client/base.py`). -/

set_option autoImplicit false

/- ====================================================================
   Shot channels and the pending-response table.

   `utils/channel.py` defines `DataEvent` (a one-shot event holding one
   optional value plus a set flag) and `ManyDataEvent` (an event that
   accumulates values and becomes set once `expect_count` of them arrived).
   `ShotEvent` models the state of either event object.  The sender and
   receiver halves of a channel share one event, so the table below keeps
   every event alive in `events` even after its id is popped from
   `pending`, exactly as a Python receiver keeps its reference.
   ==================================================================== -/

namespace UtilsChannel

inductive ShotEvent (V : Type) where
  | oneShot (data : Option V) (isSet : Bool)
  | manyShot (expectCount : Nat) (data : List V) (isSet : Bool)
deriving DecidableEq

/-- `closed` property of `OneShotSender` / `ManyShotSender`: the event is set. -/
def ShotEvent.closed {V : Type} : ShotEvent V → Bool
  | .oneShot _ s => s
  | .manyShot _ _ s => s

/-- `OneShotSender.send` / `ManyShotSender.send` from `utils/channel.py`:
raise if the event is already set; a one-shot send stores the value and sets
the event; a many-shot send appends the value and sets the event exactly when
`expect_count` values have accumulated (`ManyDataEvent.set_data`). -/
def ShotEvent.senderSend {V : Type} : ShotEvent V → V → Except String (ShotEvent V)
  | .oneShot _ true, _ => .error "Receiver already closed"
  | .oneShot _ false, v => .ok (.oneShot (some v) true)
  | .manyShot _ _ true, _ => .error "ManyShotSender can only be used once"
  | .manyShot n d false, v =>
      let d2 := d ++ [v]
      .ok (.manyShot n d2 (decide (n ≤ d2.length)))

/-- `ManyShotReceiver.try_receive` / `ManyDataEvent.get_data`: the list of
accumulated values, available once the event is set. -/
def ShotEvent.tryReceiveMany {V : Type} : ShotEvent V → Option (List V)
  | .manyShot _ d true => some d
  | _ => Option.none

/-- `OneShotReceiver.try_receive` / `DataEvent.get_data`: the stored value,
available once the event is set. -/
def ShotEvent.tryReceiveOne {V : Type} : ShotEvent V → Option V
  | .oneShot d true => d
  | _ => Option.none

/-- `ShotTable` from `utils/channel.py`: `pending` models the `_pending`
dict keys in insertion order; `events` records the event object created for
each registered id (the receiver's shared reference to it). -/
structure ShotTable (V : Type) where
  pending : List Nat
  events : List (Nat × ShotEvent V)
deriving DecidableEq

def ShotTable.empty {V : Type} : ShotTable V := ⟨[], []⟩

/-- `ShotTable.register`: fail if the id is already present, otherwise add
the sender under the id. -/
def ShotTable.register {V : Type} (t : ShotTable V) (id : Nat) (e : ShotEvent V) :
    Except String (ShotTable V) :=
  if id ∈ t.pending then .error "Sender with id already registered"
  else .ok ⟨t.pending ++ [id], t.events ++ [(id, e)]⟩

/-- Mutate the event stored under `id` (the effect of calling `send` on the
sender object shared between the table and the receiver). -/
def setEvent {V : Type} (es : List (Nat × ShotEvent V)) (id : Nat) (e : ShotEvent V) :
    List (Nat × ShotEvent V) :=
  es.map fun p => if p.1 = id then (p.1, e) else p

/-- `ShotTable.send` from `utils/channel.py`: raise `ValueError` if the id
has no pending entry; otherwise call the sender's `send` and then pop the
entry unconditionally. -/
def ShotTable.send {V : Type} (t : ShotTable V) (id : Nat) (v : V) :
    Except String (ShotTable V) :=
  if id ∈ t.pending then
    match t.events.lookup id with
    | some e =>
        match e.senderSend v with
        | .ok e2 => .ok ⟨t.pending.erase id, setEvent t.events id e2⟩
        | .error msg => .error msg
    | Option.none => .error "registered id lost its event"
  else .error "Pending request of id not found"

/-- `ShotTable.wait` registrations for a batch of requests: one fresh
one-shot sender per id, as each concurrent `wait(id)` call creates. -/
def ShotTable.registerOneShots {V : Type} (t : ShotTable V) :
    List Nat → Except String (ShotTable V)
  | [] => .ok t
  | id :: ids => do
      let t2 ← t.register id (.oneShot Option.none false)
      t2.registerOneShots ids

/-- The read loop delivering a batch of responses through `ShotTable.send`,
in arrival order. -/
def ShotTable.sendAll {V : Type} (t : ShotTable V) :
    List (Nat × V) → Except String (ShotTable V)
  | [] => .ok t
  | (id, v) :: rest => do
      let t2 ← t.send id v
      t2.sendAll rest

end UtilsChannel

namespace LegacyChannel

/-- `ShotTable.send` from `lsp_client/channel.py` (same table state as the
`utils/channel.py` version): raise if the id is unknown, raise if the sender
is already closed, call the sender's `send`, and pop the entry only once the
sender reports `closed` afterwards. -/
def tableSend {V : Type} (t : UtilsChannel.ShotTable V) (id : Nat) (v : V) :
    Except String (UtilsChannel.ShotTable V) :=
  if id ∈ t.pending then
    match t.events.lookup id with
    | some sender =>
        if sender.closed then .error "OneShotSender with id is closed"
        else
          match sender.senderSend v with
          | .ok e2 =>
              .ok ⟨if e2.closed then t.pending.erase id else t.pending,
                   UtilsChannel.setEvent t.events id e2⟩
          | .error msg => .error msg
    | Option.none => .error "registered id lost its event"
  else .error "OneShotSender with id not found"

end LegacyChannel

/- ====================================================================
   Ordering of the effects of one `request` call.

   `StdioServer.request` (`server/stdio.py`) runs
   `await process.send(request)` and then
   `await self.runtime.resp_table.wait(request["id"])`, where
   `ShotTable.wait` first registers the id and then awaits the receiver.
   `Server.request` (`server/abc.py`) and `LSPServerPool._client_worker`
   (`server/base.py`) order the same two effects identically: the write
   comes first, the pending-table registration second.
   ==================================================================== -/

inductive RequestAction where
  | writeRequest
  | registerId
  | awaitResponse
deriving DecidableEq

/-- The effect order of a single `request(Request)` call as written in
`StdioServer.request` / `Server.request` / `LSPServerPool._client_worker`. -/
def requestSteps : List RequestAction :=
  [RequestAction.writeRequest, RequestAction.registerId, RequestAction.awaitResponse]

/- ====================================================================
   Client scoped lifetime (`Client.__asynccontextmanager__` in
   `client/abc.py`): send `initialize` (inside `_initialize`, which also
   runs the capability checks and sends the `initialized` notification);
   if that raised, the surrounding scope unwinds at once; otherwise yield
   to user code and, in a `finally` block, await `_shutdown()` and then
   `_exit()`.  `_exit` runs only when `_shutdown` returned normally.
   ==================================================================== -/

inductive LifeMsg where
  | initializeReq
  | initializedNoti
  | shutdownReq
  | exitNoti
deriving DecidableEq

structure LifecycleOutcome where
  initOk : Bool
  userOk : Bool
  shutdownOk : Bool
deriving DecidableEq

/-- The wire trace of handshake/teardown messages produced by one pass
through the client's scoped lifetime, indexed by which of the three
fallible phases succeed.  `userOk` does not change the trace: the
`try`/`finally` runs `_shutdown` and `_exit` whether or not the user body
raised. -/
def clientLifecycleTrace (o : LifecycleOutcome) : List LifeMsg :=
  if o.initOk then
    [LifeMsg.initializeReq, LifeMsg.initializedNoti, LifeMsg.shutdownReq]
      ++ (if o.shutdownOk then [LifeMsg.exitNoti] else [])
  else
    [LifeMsg.initializeReq]

/- ====================================================================
   Reference-counted file buffer, restricted to one uri.

   `LSPFileBuffer.open` (`capability/file_buffer.py`) increments the
   counter for every requested uri and returns only the uris that were not
   yet in `_lookup`; `close` decrements the counter for the uris it is
   given and pops from `_lookup` (reporting a close) every uri whose
   counter is now `<= 0`.  The `open_files` scope (`client/abc.py`,
   `client/base.py`) opens all its uris but passes only the items `open`
   returned — the newly opened ones — back to `close` on scope exit.
   A scope is modelled by whether it newly opened the uri (`stack` holds
   that flag per live scope, innermost first). -/

structure BufferState where
  refCount : Int
  inLookup : Bool
deriving DecidableEq

inductive FileEvent where
  | didOpen
  | didClose
deriving DecidableEq

inductive ScopeOp where
  | enterScope
  | exitScope
deriving DecidableEq

structure ScopeState where
  buf : BufferState
  stack : List Bool
deriving DecidableEq

/-- One `open_files` scope boundary on a fixed uri.  Entering runs
`buffer.open([uri])`: the counter rises by one and `didOpen` is emitted
exactly when the uri was not in `_lookup`.  Exiting runs
`buffer.close(newly-opened uris of this scope)`: a scope that opened
nothing closes nothing; the scope that did open decrements by one and
emits `didClose` only if the counter dropped to `<= 0` while the uri was
still in `_lookup`. -/
def stepScope (s : ScopeState) : ScopeOp → ScopeState × List FileEvent
  | .enterScope =>
      let newlyOpened := !s.buf.inLookup
      (⟨⟨s.buf.refCount + 1, true⟩, newlyOpened :: s.stack⟩,
       if newlyOpened then [FileEvent.didOpen] else [])
  | .exitScope =>
      match s.stack with
      | [] => (s, [])
      | newlyOpened :: rest =>
          if newlyOpened then
            let rc := s.buf.refCount - 1
            if rc ≤ 0 ∧ s.buf.inLookup then
              (⟨⟨rc, false⟩, rest⟩, [FileEvent.didClose])
            else
              (⟨⟨rc, s.buf.inLookup⟩, rest⟩, [])
          else (⟨s.buf, rest⟩, [])

def runScopes : ScopeState → List ScopeOp → ScopeState × List FileEvent
  | s, [] => (s, [])
  | s, op :: ops =>
      let r := stepScope s op
      let r2 := runScopes r.1 ops
      (r2.1, r.2 ++ r2.2)

def initialScopeState : ScopeState := ⟨⟨0, false⟩, []⟩

/-- The events the claim prescribes: `didOpen` exactly on the reference
count's 0-to-1 transitions, `didClose` exactly on its 1-to-0 transitions. -/
def claimedEvents : Int → List ScopeOp → List FileEvent
  | _, [] => []
  | c, .enterScope :: ops =>
      (if c = 0 then [FileEvent.didOpen] else []) ++ claimedEvents (c + 1) ops
  | c, .exitScope :: ops =>
      (if c = 1 then [FileEvent.didClose] else []) ++ claimedEvents (c - 1) ops

/- ====================================================================
   Capability merging (`utils/attrs.py`).

   Runtime values reaching `attrs_merge` are `None`, attrs instances
   (structs tagged by their Python type), or other plain values.  `AVal`
   models them; `attrs_merge` follows the source `match` arm by arm, with
   `attrs.evolve(base, **{k: attrs_merge(getattr(base, k, None), v) ...})`
   rendered as the field-by-field merge `attrs_merge_fields` (fields of
   `base` beyond those supplied stay untouched, as `evolve` keeps
   unmentioned attributes).
   ==================================================================== -/

inductive AVal where
  | pyNone
  | prim (n : Nat)
  | struct (tag : Nat) (fields : List AVal)

mutual

def attrs_merge : AVal → AVal → AVal
  | .pyNone, .pyNone => .pyNone
  | b, .pyNone => b
  | .pyNone, u => u
  | .struct ta fs, .struct tb us =>
      if ta = tb then .struct ta (attrs_merge_fields fs us)
      else .struct tb us
  | _, u => u

def attrs_merge_fields : List AVal → List AVal → List AVal
  | fs, [] => fs
  | [], _ => []
  | f :: fs, u :: us => attrs_merge f u :: attrs_merge_fields fs us

end

/-- `attrs_merges` / `LSPClientBase.client_capabilities`: fold the
capability fragments together in composition order (`functools.reduce`). -/
def attrs_merges : List AVal → AVal
  | [] => .pyNone
  | a :: rest => rest.foldl attrs_merge a

/- ====================================================================
   LSP framing (`server/jsonrpc.py`), at the byte level.  The JSON codec
   above the framing layer is abstracted: the body is an opaque byte list.
   ==================================================================== -/

namespace Framing

/-- `receive_until(b"\r\n")`: the bytes before the first CRLF and the
bytes after it, or `none` when the stream ends without a CRLF. -/
def splitCRLF : List Nat → Option (List Nat × List Nat)
  | [] => Option.none
  | c :: rest =>
      if c = 13 ∧ rest.head? = some 10 then some ([], rest.tail)
      else (splitCRLF rest).map fun pr => (c :: pr.1, pr.2)

def contentLengthBytes : List Nat := "Content-Length:".toList.map Char.toNat

/-- Bytes matched by the regex class from `HEADER_RE`'s `\s*`. -/
def isSpaceByte (b : Nat) : Bool :=
  b = 32 || b = 9 || b = 10 || b = 13 || b = 12 || b = 11

def isDigitByte (b : Nat) : Bool := 48 ≤ b && b ≤ 57

def dropPrefixBytes : List Nat → List Nat → Option (List Nat)
  | [], s => some s
  | _, [] => Option.none
  | p :: ps, c :: cs => if p = c then dropPrefixBytes ps cs else Option.none

/-- `HEADER_RE.match(header)` for the pattern
`Content-Length:\s*(?P<length>\d+)` followed by `int(...)` on the digit
group: an anchored literal prefix, any run of whitespace, then at least
one digit; trailing bytes on the line are ignored. -/
def parseContentLength (header : List Nat) : Option Nat :=
  match dropPrefixBytes contentLengthBytes header with
  | Option.none => Option.none
  | some rest =>
      let ds := (rest.dropWhile isSpaceByte).takeWhile isDigitByte
      if ds.isEmpty then Option.none
      else some (ds.foldl (fun a d => 10 * a + (d - 48)) 0)

inductive FrameError where
  | eofError
  | valueError
  | incompleteRead
deriving DecidableEq

/-- `read_raw_package`: read the header line up to CRLF (`EOFError` when
the stream is closed), match `Content-Length` and reject a missing match
or a zero length (`not header_match or not length`), consume the blank
line, then read exactly `length` body bytes.  Returns the body and the
unread remainder of the stream. -/
def read_raw_package (s : List Nat) : Except FrameError (List Nat × List Nat) :=
  match splitCRLF s with
  | Option.none => .error .eofError
  | some (header, rest) =>
      if header.isEmpty then .error .eofError
      else
        match parseContentLength header with
        | Option.none => .error .valueError
        | some len =>
            if len = 0 then .error .valueError
            else
              match splitCRLF rest with
              | Option.none => .error .eofError
              | some (_, rest2) =>
                  if rest2.length < len then .error .incompleteRead
                  else .ok (rest2.take len, rest2.drop len)

/-- Fuel-indexed base-10 digits, least significant first. -/
def natDigitsAux : Nat → Nat → List Nat
  | _, 0 => []
  | 0, _ => []
  | fuel + 1, n + 1 => (n + 1) % 10 :: natDigitsAux fuel ((n + 1) / 10)

def natDigits (n : Nat) : List Nat := natDigitsAux n n

/-- The ASCII bytes of `str(n)` as the f-string in `write_raw_package`
produces them. -/
def natBytes (n : Nat) : List Nat :=
  if n = 0 then [48] else ((natDigits n).map (fun d => d + 48)).reverse

/-- `write_raw_package`: prepend `Content-Length: <N>\r\n\r\n` to the
body bytes. -/
def write_raw_package (body : List Nat) : List Nat :=
  contentLengthBytes ++ [32] ++ natBytes body.length ++ [13, 10, 13, 10] ++ body

end Framing

/- ====================================================================
   Server-to-client dispatch (`LSPClientBase._dispatch_server_request`
   in `client/base.py`): a Python `match` over the raw package.  A tuple
   `(raw_req, tx)` is a server request, a bare dict a notification; each
   known method arm is guarded by an `isinstance` capability check.  The
   two fall-through arms are `case (raw_req, _): raise ValueError(...)`
   and `case noti: logger.warning(...)`.
   ==================================================================== -/

inductive SMethod where
  | logMessage
  | showMessage
  | showMessageRequest
  | publishDiagnostics
  | workspaceFolders
  | workspaceConfiguration
  | otherMethod
deriving DecidableEq

structure ClientHooks where
  receiveLogMessage : Bool
  receiveShowMessage : Bool
  respondShowMessage : Bool
  receivePublishDiagnostics : Bool
  respondWorkspaceFolders : Bool
  respondWorkspaceConfiguration : Bool
deriving DecidableEq

inductive ServerMsg where
  | request (m : SMethod)
  | notif (m : SMethod)
deriving DecidableEq

inductive DispatchResult where
  | handledNotification
  | respondedRequest
  | raisedValueError
  | warnedUnknown
deriving DecidableEq

/-- Outcome of `_dispatch_server_request` per package shape.  Mapping
patterns never match the `(raw_req, tx)` tuples and conversely, so a
request with an unhandled method always reaches the
`raise ValueError` arm and a notification with no matching guarded arm
always reaches the `logger.warning` arm. -/
def dispatchServerRequest (h : ClientHooks) : ServerMsg → DispatchResult
  | .notif .logMessage =>
      if h.receiveLogMessage then .handledNotification else .warnedUnknown
  | .notif .showMessage =>
      if h.receiveShowMessage then .handledNotification else .warnedUnknown
  | .request .showMessageRequest =>
      if h.respondShowMessage then .respondedRequest else .raisedValueError
  | .notif .publishDiagnostics =>
      if h.receivePublishDiagnostics then .handledNotification else .warnedUnknown
  | .request .workspaceFolders =>
      if h.respondWorkspaceFolders then .respondedRequest else .raisedValueError
  | .request .workspaceConfiguration =>
      if h.respondWorkspaceConfiguration then .respondedRequest else .raisedValueError
  | .request _ => .raisedValueError
  | .notif _ => .warnedUnknown

/- ====================================================================
   Server fallback chain (`Client._iter_candidate_servers` and
   `Client._run_server`, `client/abc.py`).
   ==================================================================== -/

namespace Fallback

inductive ServerChoice where
  | unset
  | containerLit
  | localLit
  | customServer
deriving DecidableEq

inductive Candidate where
  | userServer
  | defaultLocal
  | defaultContainer
deriving DecidableEq

/-- `Client._iter_candidate_servers`: yield per the `match` on the server
argument, then — with `ServerRuntimeError` from the probe suppressed —
the local default when `check_availability` passed, then the container
default, then the local default (whose run may auto-install). -/
def iter_candidate_servers (arg : ServerChoice) (localAvailable : Bool) :
    List Candidate :=
  (match arg with
   | .unset => []
   | .containerLit => [Candidate.defaultContainer]
   | .localLit => [Candidate.defaultLocal]
   | .customServer => [Candidate.userServer])
  ++ (if localAvailable then [Candidate.defaultLocal] else [])
  ++ [Candidate.defaultContainer, Candidate.defaultLocal]

/-- The order the claim states: the user-supplied server if any, then the
local server guarded by its availability probe, then the container
server, then the local server again (with auto-install). -/
def claimedCandidateOrder (arg : ServerChoice) (localAvailable : Bool) :
    List Candidate :=
  (match arg with
   | .unset => []
   | .containerLit => [Candidate.defaultContainer]
   | .localLit => [Candidate.defaultLocal]
   | .customServer => [Candidate.userServer])
  ++ (if localAvailable then [Candidate.defaultLocal] else [])
  ++ [Candidate.defaultContainer]
  ++ [Candidate.defaultLocal]

/-- `Client._run_server`: try each candidate's `run` scope in turn;
`attempt c = none` means the scope entered successfully (that candidate is
used and iteration stops), `attempt c = some e` a `ServerRuntimeError`
appended to `errors`.  When the candidates are exhausted the accumulated
errors are raised as one `ExceptionGroup`. -/
def runServerChain (attempt : Candidate → Option Nat) :
    List Candidate → List Nat → Except (List Nat) (Candidate × List Nat)
  | [], errs => .error errs
  | c :: cs, errs =>
      match attempt c with
      | Option.none => .ok (c, errs)
      | some e => runServerChain attempt cs (errs ++ [e])

end Fallback

/- ====================================================================
   Path-to-URI translation (`LSPClientBase.as_uri`, `client/base.py`).
   Paths are modelled as a segment list plus an absolute flag; a
   workspace is the ordered name-to-folder mapping built by `start`; a
   folder keeps the segments of its filesystem path.  `as_uri` only reads
   the runtime state, so it is a pure function of workspace and path.
   ==================================================================== -/

namespace AsUri

structure PyPath where
  isAbs : Bool
  parts : List String
deriving DecidableEq

structure FolderM where
  pathParts : List String
deriving DecidableEq

abbrev WorkspaceM := List (String × FolderM)

inductive UriError where
  | valueError
  | keyError
deriving DecidableEq

def ROOT_FOLDER_NAME : String := "__root__"

/-- `Path.is_relative_to` on absolute paths: segment-list prefix. -/
def isRelativeTo (p base : List String) : Bool := base.isPrefixOf p

/-- `LSPClientBase.as_uri`: an absolute path must lie under some workspace
folder and is returned as-is; a relative path in a single-root workspace
is resolved against the folder stored under `__root__` (a `KeyError`
when the sole folder has another name); in a multi-root workspace the
first segment selects the folder (a `ValueError` when it names none).
`AbsPath(file_path, base_path=folder.path)` joins the folder's segments
with the whole relative path.  An empty relative path in a multi-root
workspace would raise `IndexError` at `file_path.parts[0]`; it is mapped
to `keyError`-like failure separately below. -/
inductive UriOutcome where
  | ok (segments : List String)
  | valueError
  | keyError
  | indexError
deriving DecidableEq

def as_uri (workspace : WorkspaceM) (fp : PyPath) : UriOutcome :=
  if fp.isAbs then
    if workspace.any (fun e => isRelativeTo fp.parts e.2.pathParts) then
      .ok fp.parts
    else .valueError
  else
    if workspace.length = 1 then
      match workspace.lookup ROOT_FOLDER_NAME with
      | some folder => .ok (folder.pathParts ++ fp.parts)
      | Option.none => .keyError
    else
      match fp.parts with
      | [] => .indexError
      | root :: _ =>
          match workspace.lookup root with
          | some folder => .ok (folder.pathParts ++ fp.parts)
          | Option.none => .valueError

end AsUri

/- ====================================================================
   Theorems.
   ==================================================================== -/

/-- C2, counterexample: in the source order of `request` the transport
write strictly precedes the pending-table registration, refuting "the
request's id is registered in the pending-response table before the
request bytes are written"; and `ShotTable.send` for an id with no
pending entry raises `ValueError` instead of logging and discarding. -/
theorem request_order_counterexample :
    ¬ requestSteps.indexOf RequestAction.registerId <
        requestSteps.indexOf RequestAction.writeRequest
    ∧ UtilsChannel.ShotTable.send (V := Nat) UtilsChannel.ShotTable.empty 7 42
        = .error "Pending request of id not found" :=
  ⟨by decide, rfl⟩

/-- C2, amended: for every call to `request`, the request is written to
the transport before its id is registered in the pending table
(registration happens inside the subsequent `wait` on the response); and
a response arriving for an id with no pending entry makes the table's
`send` raise `ValueError` (it is not silently discarded and the reading
worker task is not shielded from it). -/
theorem request_order_amended :
    requestSteps.indexOf RequestAction.writeRequest <
        requestSteps.indexOf RequestAction.registerId
    ∧ ∀ (id v : Nat),
        UtilsChannel.ShotTable.send (V := Nat) UtilsChannel.ShotTable.empty id v
          = .error "Pending request of id not found" := by
  refine ⟨by decide, ?_⟩
  intro id v
  simp [UtilsChannel.ShotTable.send, UtilsChannel.ShotTable.empty]

/-- C3: evaluating `utils/channel.py`'s `ShotTable` on a many-shot entry
with `expected_count = 2`: after `register` and a first `send`, the entry
is already gone from the table (its event holds one value and is not yet
set), and the second `send` for the same id fails — the entry does not
remain until the expected number of sends.  The `channel.py` variant of
`send` on the same inputs keeps the entry after the first send, removes
it on the second, and then the receiver yields both values in order. -/
theorem manyshot_entry_removed_after_first_send :
    UtilsChannel.ShotTable.register (V := Nat) UtilsChannel.ShotTable.empty 0
        (.manyShot 2 [] false)
      = .ok ⟨[0], [(0, .manyShot 2 [] false)]⟩
    ∧ UtilsChannel.ShotTable.send (V := Nat) ⟨[0], [(0, .manyShot 2 [] false)]⟩ 0 10
      = .ok ⟨[], [(0, .manyShot 2 [10] false)]⟩
    ∧ UtilsChannel.ShotTable.send (V := Nat) ⟨[], [(0, .manyShot 2 [10] false)]⟩ 0 20
      = .error "Pending request of id not found"
    ∧ LegacyChannel.tableSend (V := Nat) ⟨[0], [(0, .manyShot 2 [] false)]⟩ 0 10
      = .ok ⟨[0], [(0, .manyShot 2 [10] false)]⟩
    ∧ LegacyChannel.tableSend (V := Nat) ⟨[0], [(0, .manyShot 2 [10] false)]⟩ 0 20
      = .ok ⟨[], [(0, .manyShot 2 [10, 20] true)]⟩
    ∧ UtilsChannel.ShotEvent.tryReceiveMany (V := Nat) (.manyShot 2 [10, 20] true)
      = some [10, 20] :=
  ⟨rfl, rfl, rfl, rfl, rfl, rfl⟩

/-- C4, counterexample: when `_initialize` raises (for example a failed
capability assertion, with the transport still alive), the scope's
`try`/`finally` has not been entered yet, so the trace contains neither
`shutdown` nor `exit` — refuting "after initialize fails, the exit
notification is always sent". -/
theorem lifecycle_counterexample :
    clientLifecycleTrace ⟨false, true, true⟩ = [LifeMsg.initializeReq]
    ∧ (clientLifecycleTrace ⟨false, true, true⟩).count LifeMsg.exitNoti = 0 :=
  ⟨rfl, rfl⟩

/-- C4, amended: over every execution of the scoped lifetime, initialize
is sent exactly once and shutdown at most once; when initialize succeeds
shutdown is sent even if the user code raised; exit is sent exactly when
the shutdown request completes successfully; when initialize fails,
neither shutdown nor exit is sent. -/
theorem lifecycle_amended : ∀ o : LifecycleOutcome,
    (clientLifecycleTrace o).count LifeMsg.initializeReq = 1
    ∧ (clientLifecycleTrace o).count LifeMsg.shutdownReq
        = (if o.initOk then 1 else 0)
    ∧ (clientLifecycleTrace o).count LifeMsg.exitNoti
        = (if o.initOk && o.shutdownOk then 1 else 0) := by
  rintro ⟨i, u, s⟩
  cases i <;> cases u <;> cases s <;> decide

/-- C5: evaluating the nested `open_files` scenario (outer scope opens the
uri, an inner scope opens it again, inner closes, outer closes).  The
claim prescribes one `didOpen` (the 0-to-1 transition) and one `didClose`
(the 1-to-0 transition); the code emits the `didOpen` but no `didClose`,
because the inner scope increments the reference count on entry yet its
exit passes only its newly-opened uris — none — to `close`, leaving the
final count at 1. -/
theorem refcount_leak_on_nested_scopes :
    (runScopes initialScopeState
        [ScopeOp.enterScope, ScopeOp.enterScope, ScopeOp.exitScope, ScopeOp.exitScope]).2
      = [FileEvent.didOpen]
    ∧ claimedEvents 0
        [ScopeOp.enterScope, ScopeOp.enterScope, ScopeOp.exitScope, ScopeOp.exitScope]
      = [FileEvent.didOpen, FileEvent.didClose]
    ∧ (runScopes initialScopeState
        [ScopeOp.enterScope, ScopeOp.enterScope, ScopeOp.exitScope, ScopeOp.exitScope]).1.buf.refCount
      = 1 := by
  refine ⟨?_, ?_, ?_⟩ <;> decide

/-- C8, counterexample: a server-to-client request whose method has no
registered handler reaches the `raise ValueError` arm — even with every
capability hook installed — rather than being answered with a
MethodNotFound error response. -/
theorem unknown_request_counterexample :
    dispatchServerRequest ⟨true, true, true, true, true, true⟩
        (ServerMsg.request SMethod.otherMethod)
      = DispatchResult.raisedValueError
    ∧ DispatchResult.raisedValueError ≠ DispatchResult.respondedRequest :=
  ⟨rfl, by decide⟩

/-- C8, amended: an inbound server request whose method has no registered
handler raises `ValueError` in the dispatcher (no MethodNotFound reply is
produced); an inbound notification whose method has no registered handler
is logged and dropped. -/
theorem unknown_request_amended : ∀ h : ClientHooks,
    dispatchServerRequest h (ServerMsg.request SMethod.otherMethod)
      = DispatchResult.raisedValueError
    ∧ dispatchServerRequest h (ServerMsg.notif SMethod.otherMethod)
      = DispatchResult.warnedUnknown
    ∧ (h.respondShowMessage = false →
        dispatchServerRequest h (ServerMsg.request SMethod.showMessageRequest)
          = DispatchResult.raisedValueError)
    ∧ (h.receiveLogMessage = false →
        dispatchServerRequest h (ServerMsg.notif SMethod.logMessage)
          = DispatchResult.warnedUnknown) := by
  intro h
  refine ⟨rfl, rfl, ?_, ?_⟩ <;> intro hh <;> simp [dispatchServerRequest, hh]

/-- C8, witness for the amended theorem at a concrete hook set. -/
theorem unknown_request_amended_witness :
    (⟨false, false, false, false, false, false⟩ : ClientHooks).respondShowMessage = false
    ∧ dispatchServerRequest ⟨false, false, false, false, false, false⟩
        (ServerMsg.request SMethod.showMessageRequest)
      = DispatchResult.raisedValueError :=
  ⟨rfl, (unknown_request_amended ⟨false, false, false, false, false, false⟩).2.2.1 rfl⟩

theorem attrs_merge_fields_eq_zipWith :
    ∀ fs us : List AVal, fs.length = us.length →
      attrs_merge_fields fs us = List.zipWith attrs_merge fs us := by
  intro fs
  induction fs with
  | nil =>
      intro us h
      cases us with
      | nil => rfl
      | cons u us => simp at h
  | cons f fs ih =>
      intro us h
      cases us with
      | nil => simp at h
      | cons u us =>
          simp only [List.length_cons, Nat.add_right_cancel_iff] at h
          simp [attrs_merge_fields, List.zipWith, ih us h]

/-- C6: the merging rules of `attrs_merge`: a `None` update leaves the
base unchanged, any update (in particular a non-None one) replaces a
`None` base, two same-typed substructures merge recursively field by
field, colliding primitive fields resolve last-writer-wins, and the fold
over the capability fragments is a pure function, so computing it twice
yields structurally equal documents. -/
theorem attrs_merge_rules :
    (∀ u, attrs_merge AVal.pyNone u = u)
    ∧ (∀ b, attrs_merge b AVal.pyNone = b)
    ∧ (∀ t fs us, fs.length = us.length →
        attrs_merge (AVal.struct t fs) (AVal.struct t us)
          = AVal.struct t (List.zipWith attrs_merge fs us))
    ∧ (∀ a k, attrs_merge (AVal.prim a) (AVal.prim k) = AVal.prim k)
    ∧ (∀ caps : List AVal, attrs_merges caps = attrs_merges caps) := by
  refine ⟨?_, ?_, ?_, ?_, fun _ => rfl⟩
  · intro u
    cases u <;> simp [attrs_merge]
  · intro b
    cases b <;> simp [attrs_merge]
  · intro t fs us h
    simp [attrs_merge, attrs_merge_fields_eq_zipWith fs us h]
  · intro a k
    simp [attrs_merge]

/-- C6, witness: the same-typed struct rule applied at a concrete pair of
one-field fragments (a set base field and a `None` update field). -/
theorem attrs_merge_rules_witness :
    ([AVal.prim 1].length = [AVal.pyNone].length)
    ∧ attrs_merge (AVal.struct 0 [AVal.prim 1]) (AVal.struct 0 [AVal.pyNone])
        = AVal.struct 0 [AVal.prim 1] := by
  refine ⟨rfl, ?_⟩
  have h := attrs_merge_rules.2.2.1 0 [AVal.prim 1] [AVal.pyNone] rfl
  rw [h]
  simp [attrs_merge]

namespace Fallback

theorem runServerChain_all_fail (attempt : Candidate → Option Nat) :
    ∀ (cs : List Candidate) (errs : List Nat),
      (∀ c ∈ cs, attempt c ≠ Option.none) →
      runServerChain attempt cs errs = .error (errs ++ cs.filterMap attempt) := by
  intro cs
  induction cs with
  | nil => intro errs _; simp [runServerChain]
  | cons c cs ih =>
      intro errs h
      match hc : attempt c with
      | Option.none => exact absurd hc (h c (List.mem_cons_self c cs))
      | some e =>
          have := ih (errs ++ [e]) (fun c' h' => h c' (List.mem_cons_of_mem c h'))
          simp [runServerChain, hc, this, List.filterMap_cons]

theorem runServerChain_first_success (attempt : Candidate → Option Nat) :
    ∀ (pre : List Candidate) (c : Candidate) (post : List Candidate) (errs : List Nat),
      (∀ c' ∈ pre, attempt c' ≠ Option.none) → attempt c = Option.none →
      runServerChain attempt (pre ++ c :: post) errs
        = .ok (c, errs ++ pre.filterMap attempt) := by
  intro pre
  induction pre with
  | nil =>
      intro c post errs _ hc
      simp [runServerChain, hc]
  | cons p pre ih =>
      intro c post errs h hc
      match hp : attempt p with
      | Option.none => exact absurd hp (h p (List.mem_cons_self p pre))
      | some e =>
          have := ih c post (errs ++ [e])
            (fun c' h' => h c' (List.mem_cons_of_mem p h')) hc
          simp [runServerChain, hp, this, List.filterMap_cons]

end Fallback

/-- C9: the candidate servers are tried in the claimed order (user choice
first, then the probed local default, then the container default, then
the local default with auto-install); a `ServerRuntimeError` from one
candidate moves on to the next; the first candidate whose run scope
enters successfully is used and the rest are never instantiated; and only
when every candidate fails is the aggregate error raised, listing each
attempt's cause in order. -/
theorem fallback_chain_behaviour :
    (∀ arg avail, Fallback.iter_candidate_servers arg avail
        = Fallback.claimedCandidateOrder arg avail)
    ∧ (∀ (attempt : Fallback.Candidate → Option Nat) pre c post,
        (∀ c' ∈ pre, attempt c' ≠ Option.none) → attempt c = Option.none →
        Fallback.runServerChain attempt (pre ++ c :: post) []
          = .ok (c, pre.filterMap attempt))
    ∧ (∀ (attempt : Fallback.Candidate → Option Nat) cs,
        (∀ c ∈ cs, attempt c ≠ Option.none) →
        Fallback.runServerChain attempt cs [] = .error (cs.filterMap attempt)) := by
  refine ⟨?_, ?_, ?_⟩
  · intro arg avail
    cases arg <;> cases avail <;> rfl
  · intro attempt pre c post h hc
    simpa using Fallback.runServerChain_first_success attempt pre c post [] h hc
  · intro attempt cs h
    simpa using Fallback.runServerChain_all_fail attempt cs [] h

/-- C9, witness: a concrete chain in which the probed local candidate
fails with a `ServerRuntimeError` and the container candidate starts; the
container candidate is selected and exactly the one preceding failure is
recorded. -/
theorem fallback_chain_behaviour_witness :
    (∀ c' ∈ [Fallback.Candidate.defaultLocal],
        (fun c => match c with
          | Fallback.Candidate.defaultContainer => Option.none
          | _ => some 5) c' ≠ Option.none)
    ∧ Fallback.runServerChain
        (fun c => match c with
          | Fallback.Candidate.defaultContainer => Option.none
          | _ => some 5)
        ([Fallback.Candidate.defaultLocal]
          ++ Fallback.Candidate.defaultContainer :: [Fallback.Candidate.defaultLocal]) []
      = .ok (Fallback.Candidate.defaultContainer, [5]) :=
  ⟨by decide,
   fallback_chain_behaviour.2.1
     (fun c => match c with
       | Fallback.Candidate.defaultContainer => Option.none
       | _ => some 5)
     [Fallback.Candidate.defaultLocal] Fallback.Candidate.defaultContainer
     [Fallback.Candidate.defaultLocal] (by decide) rfl⟩

/-- C10, counterexample: on a running client whose workspace has exactly
one folder registered under a name other than `__root__` (as `start`
builds from a one-entry mapping), `as_uri` of a relative path is in
neither of the claim's two `ValueError` cases, yet it raises `KeyError`
at `workspace["__root__"]` instead of returning a file URI. -/
theorem as_uri_counterexample :
    AsUri.as_uri [("ws", ⟨["home", "ws"]⟩)] ⟨false, ["a.py"]⟩
      = AsUri.UriOutcome.keyError
    ∧ AsUri.UriOutcome.keyError ≠ AsUri.UriOutcome.valueError
    ∧ ∀ segs, AsUri.UriOutcome.keyError ≠ AsUri.UriOutcome.ok segs := by
  refine ⟨rfl, by decide, ?_⟩
  intro segs h
  cases h

/-- C10, amended: `as_uri` raises `ValueError` for an absolute path under
no workspace folder and for a relative path in a multi-root workspace
whose first segment names no folder; it is a pure read of the client
state; and otherwise it returns a file URI, except that a single-root
workspace whose folder is not registered under `__root__` raises
`KeyError` for every relative path, and an empty relative path in a
multi-root workspace raises `IndexError`. -/
theorem as_uri_characterisation : ∀ (ws : AsUri.WorkspaceM) (fp : AsUri.PyPath),
    (fp.isAbs = true →
      ws.any (fun e => AsUri.isRelativeTo fp.parts e.2.pathParts) = false →
      AsUri.as_uri ws fp = AsUri.UriOutcome.valueError)
    ∧ (fp.isAbs = true →
        ws.any (fun e => AsUri.isRelativeTo fp.parts e.2.pathParts) = true →
        AsUri.as_uri ws fp = AsUri.UriOutcome.ok fp.parts)
    ∧ (fp.isAbs = false → ws.length = 1 →
        ws.lookup AsUri.ROOT_FOLDER_NAME = Option.none →
        AsUri.as_uri ws fp = AsUri.UriOutcome.keyError)
    ∧ (∀ f, fp.isAbs = false → ws.length = 1 →
        ws.lookup AsUri.ROOT_FOLDER_NAME = some f →
        AsUri.as_uri ws fp = AsUri.UriOutcome.ok (f.pathParts ++ fp.parts))
    ∧ (∀ root rest, fp.isAbs = false → ws.length ≠ 1 → fp.parts = root :: rest →
        ws.lookup root = Option.none →
        AsUri.as_uri ws fp = AsUri.UriOutcome.valueError)
    ∧ (∀ root rest f, fp.isAbs = false → ws.length ≠ 1 → fp.parts = root :: rest →
        ws.lookup root = some f →
        AsUri.as_uri ws fp = AsUri.UriOutcome.ok (f.pathParts ++ fp.parts))
    ∧ (fp.isAbs = false → ws.length ≠ 1 → fp.parts = [] →
        AsUri.as_uri ws fp = AsUri.UriOutcome.indexError) := by
  intro ws fp
  refine ⟨?_, ?_, ?_, ?_, ?_, ?_, ?_⟩
  · intro h1 h2; simp [AsUri.as_uri, h1, h2]
  · intro h1 h2; simp [AsUri.as_uri, h1, h2]
  · intro h1 h2 h3; simp [AsUri.as_uri, h1, h2, h3]
  · intro f h1 h2 h3; simp [AsUri.as_uri, h1, h2, h3]
  · intro root rest h1 h2 h3 h4; simp [AsUri.as_uri, h1, h2, h3, h4]
  · intro root rest f h1 h2 h3 h4; simp [AsUri.as_uri, h1, h2, h3, h4]
  · intro h1 h2 h3; simp [AsUri.as_uri, h1, h2, h3]

/-- C10, witness for the amended theorem: a single-root workspace whose
folder is registered under `__root__` resolves a relative path to a file
URI under the root folder. -/
theorem as_uri_characterisation_witness :
    ([("__root__", (⟨["home", "p"]⟩ : AsUri.FolderM))].lookup AsUri.ROOT_FOLDER_NAME
      = some ⟨["home", "p"]⟩)
    ∧ AsUri.as_uri [("__root__", ⟨["home", "p"]⟩)] ⟨false, ["a.py"]⟩
        = AsUri.UriOutcome.ok ["home", "p", "a.py"] :=
  ⟨rfl,
   (as_uri_characterisation [("__root__", ⟨["home", "p"]⟩)] ⟨false, ["a.py"]⟩).2.2.2.1
     ⟨["home", "p"]⟩ rfl rfl rfl⟩

namespace Framing

theorem splitCRLF_cons_crlf (r : List Nat) :
    splitCRLF (13 :: 10 :: r) = some ([], r) := by
  simp [splitCRLF]

theorem splitCRLF_append_no13 :
    ∀ (l r : List Nat), (∀ c ∈ l, c ≠ 13) →
      splitCRLF (l ++ 13 :: 10 :: r) = some (l, r) := by
  intro l
  induction l with
  | nil => intro r _; simpa using splitCRLF_cons_crlf r
  | cons c l ih =>
      intro r h
      have hc : c ≠ 13 := h c (List.mem_cons_self c l)
      have hcond : ¬ (c = 13 ∧ (l ++ 13 :: 10 :: r).head? = some 10) := fun h2 => hc h2.1
      simp [splitCRLF, hcond, ih r (fun x hx => h x (List.mem_cons_of_mem c hx))]
      intro h13
      exact absurd h13 hc

theorem dropPrefixBytes_append :
    ∀ (p s : List Nat), dropPrefixBytes p (p ++ s) = some s := by
  intro p
  induction p with
  | nil => intro s; simp [dropPrefixBytes]
  | cons a p ih => intro s; simp [dropPrefixBytes, ih]

theorem natDigitsAux_lt_ten :
    ∀ (fuel n : Nat), ∀ d ∈ natDigitsAux fuel n, d < 10 := by
  intro fuel
  induction fuel with
  | zero =>
      intro n d hd
      cases n <;> simp [natDigitsAux] at hd
  | succ fuel ih =>
      intro n d hd
      cases n with
      | zero => simp [natDigitsAux] at hd
      | succ m =>
          simp only [natDigitsAux, List.mem_cons] at hd
          rcases hd with h | h
          · subst h; exact Nat.mod_lt _ (by omega)
          · exact ih _ d h

theorem natDigitsAux_foldr :
    ∀ (fuel n : Nat), n ≤ fuel →
      (natDigitsAux fuel n).foldr (fun d a => 10 * a + d) 0 = n := by
  intro fuel
  induction fuel with
  | zero =>
      intro n h
      have : n = 0 := by omega
      subst this; rfl
  | succ fuel ih =>
      intro n h
      cases n with
      | zero => rfl
      | succ m =>
          have hdiv : (m + 1) / 10 ≤ fuel := by
            have := Nat.div_lt_self (Nat.succ_pos m) (by omega : 1 < 10)
            omega
          simp only [natDigitsAux, List.foldr_cons, ih _ hdiv]
          omega

theorem natDigits_ne_nil (n : Nat) (h : n ≠ 0) : natDigits n ≠ [] := by
  cases n with
  | zero => exact absurd rfl h
  | succ m => simp [natDigits, natDigitsAux]

theorem natBytes_digit_facts (n : Nat) :
    ∀ b ∈ natBytes n, isDigitByte b = true ∧ isSpaceByte b = false ∧ b ≠ 13 := by
  intro b hb
  by_cases h : n = 0
  · subst h
    simp [natBytes] at hb
    subst hb; decide
  · simp only [natBytes, h, if_false, List.mem_reverse, List.mem_map] at hb
    obtain ⟨d, hd, rfl⟩ := hb
    have hlt : d < 10 := natDigitsAux_lt_ten n n d (by simpa [natDigits] using hd)
    refine ⟨?_, ?_, ?_⟩
    · simp only [isDigitByte, Bool.and_eq_true, decide_eq_true_eq]
      omega
    · simp only [isSpaceByte, Bool.or_eq_false_iff, decide_eq_false_iff_not]
      omega
    · omega

theorem natBytes_ne_nil (n : Nat) : natBytes n ≠ [] := by
  by_cases h : n = 0
  · subst h; simp [natBytes]
  · simp only [natBytes, h, if_false, ne_eq, List.reverse_eq_nil_iff, List.map_eq_nil_iff]
    exact natDigits_ne_nil n h

theorem dropWhile_all_false {p : Nat → Bool} :
    ∀ l : List Nat, (∀ b ∈ l, p b = false) → l.dropWhile p = l := by
  intro l
  cases l with
  | nil => intro _; rfl
  | cons b t => intro h; simp [List.dropWhile_cons, h b (List.mem_cons_self b t)]

theorem takeWhile_all_true {p : Nat → Bool} :
    ∀ l : List Nat, (∀ b ∈ l, p b = true) → l.takeWhile p = l := by
  intro l
  induction l with
  | nil => intro _; rfl
  | cons b t ih =>
      intro h
      simp [List.takeWhile_cons, h b (List.mem_cons_self b t),
        ih (fun x hx => h x (List.mem_cons_of_mem b hx))]

theorem foldl_natBytes (n : Nat) (h : n ≠ 0) :
    (natBytes n).foldl (fun a d => 10 * a + (d - 48)) 0 = n := by
  simp only [natBytes, h, if_false]
  rw [List.foldl_reverse, List.foldr_map]
  have heq : (fun (x : Nat) (y : Nat) => 10 * y + (x + 48 - 48))
      = fun d a => 10 * a + d := by
    funext d a; omega
  rw [heq]
  exact natDigitsAux_foldr n n (Nat.le_refl n)

theorem parseContentLength_natBytes (n : Nat) (h : n ≠ 0) :
    parseContentLength (contentLengthBytes ++ 32 :: natBytes n) = some n := by
  unfold parseContentLength
  rw [dropPrefixBytes_append]
  have hdrop1 : (32 :: natBytes n).dropWhile isSpaceByte
      = (natBytes n).dropWhile isSpaceByte := by
    simp [List.dropWhile_cons, isSpaceByte]
  have hdrop2 : (natBytes n).dropWhile isSpaceByte = natBytes n :=
    dropWhile_all_false _ (fun b hb => (natBytes_digit_facts n b hb).2.1)
  have htake : (natBytes n).takeWhile isDigitByte = natBytes n :=
    takeWhile_all_true _ (fun b hb => (natBytes_digit_facts n b hb).1)
  have hne : (natBytes n).isEmpty = false := by
    simp [List.isEmpty_iff, natBytes_ne_nil n]
  simp only [hdrop1, hdrop2, htake, hne, if_false, Bool.false_eq_true]
  rw [foldl_natBytes n h]

end Framing

/-- C7, counterexample: the frame the writer produces for an empty body
carries `Content-Length: 0`, and the framing reader rejects it with
`ValueError` at the header check (`not header_match or not length`) —
the zero-byte frame is not accepted at the framing layer. -/
theorem framing_zero_counterexample :
    Framing.read_raw_package (Framing.write_raw_package []) = .error .valueError := rfl

/-- C7, amended: for every body of byte length at least 1, writing the
body with the framing writer and reading the result with the framing
reader returns the original body (with the stream fully consumed); a
frame whose `Content-Length` is 0 is rejected already at the framing
layer. -/
theorem framing_roundtrip (body : List Nat) (h : body ≠ []) :
    Framing.read_raw_package (Framing.write_raw_package body) = .ok (body, []) := by
  have hlen : body.length ≠ 0 := by simpa using h
  have hw : Framing.write_raw_package body
      = (Framing.contentLengthBytes ++ 32 :: Framing.natBytes body.length)
        ++ 13 :: 10 :: (13 :: 10 :: body) := by
    simp [Framing.write_raw_package]
  have hno13 : ∀ c ∈ Framing.contentLengthBytes ++ 32 :: Framing.natBytes body.length,
      c ≠ 13 := by
    intro c hc
    rcases List.mem_append.mp hc with h1 | h1
    · revert h1
      have : ∀ c ∈ Framing.contentLengthBytes, c ≠ 13 := by decide
      exact this c
    · rcases List.mem_cons.mp h1 with rfl | h2
      · decide
      · exact (Framing.natBytes_digit_facts body.length c h2).2.2
  have hsplit1 :=
    Framing.splitCRLF_append_no13
      (Framing.contentLengthBytes ++ 32 :: Framing.natBytes body.length)
      (13 :: 10 :: body) hno13
  have hheader : (Framing.contentLengthBytes
      ++ 32 :: Framing.natBytes body.length).isEmpty = false := by
    simp [List.isEmpty_iff, Framing.contentLengthBytes]
  have hparse := Framing.parseContentLength_natBytes body.length hlen
  rw [hw]
  simp only [Framing.read_raw_package, hsplit1, hheader, hparse,
    Framing.splitCRLF_cons_crlf, hlen, if_false, Bool.false_eq_true,
    Nat.lt_irrefl, List.take_length, List.drop_length]

/-- C7, witness for the amended round-trip at the one-byte body `"0"`. -/
theorem framing_roundtrip_witness :
    ([48] : List Nat) ≠ []
    ∧ Framing.read_raw_package (Framing.write_raw_package [48]) = .ok ([48], []) :=
  ⟨by decide, framing_roundtrip [48] (by decide)⟩


namespace UtilsChannel

theorem registerOneShots_spec {V : Type} :
    ∀ (ids : List Nat) (t : ShotTable V),
      (∀ id ∈ ids, id ∉ t.pending) → ids.Nodup →
      t.registerOneShots ids
        = .ok ⟨t.pending ++ ids,
               t.events ++ ids.map (fun id => (id, ShotEvent.oneShot Option.none false))⟩ := by
  intro ids
  induction ids with
  | nil => intro t _ _; simp [ShotTable.registerOneShots]
  | cons id ids ih =>
      intro t h hnd
      have hid : id ∉ t.pending := h id (List.mem_cons_self id ids)
      have hreg : t.register id (.oneShot Option.none false)
          = .ok ⟨t.pending ++ [id], t.events ++ [(id, .oneShot Option.none false)]⟩ := by
        simp [ShotTable.register, hid]
      have hrest : ∀ i ∈ ids,
          i ∉ (⟨t.pending ++ [id], t.events ++ [(id, .oneShot Option.none false)]⟩ :
            ShotTable V).pending := by
        intro i hi
        simp only [List.mem_append, List.mem_singleton]
        rintro (h1 | rfl)
        · exact h i (List.mem_cons_of_mem id hi) h1
        · exact (List.nodup_cons.mp hnd).1 hi
      have hres := ih ⟨t.pending ++ [id], t.events ++ [(id, .oneShot Option.none false)]⟩
        hrest (List.nodup_cons.mp hnd).2
      show (do
          let t2 ← t.register id (.oneShot Option.none false)
          t2.registerOneShots ids) = _
      rw [hreg]
      show ShotTable.registerOneShots _ ids = _
      rw [hres]
      simp [List.append_assoc]

theorem lookup_map_oneShot {V : Type} :
    ∀ (ids : List Nat) (id : Nat), id ∈ ids →
      (ids.map (fun i => (i, ShotEvent.oneShot (V := V) Option.none false))).lookup id
        = some (ShotEvent.oneShot Option.none false) := by
  intro ids
  induction ids with
  | nil => intro id h; simp at h
  | cons i ids ih =>
      intro id h
      by_cases hi : id = i
      · subst hi; simp [List.lookup_cons]
      · rcases List.mem_cons.mp h with rfl | h2
        · exact absurd rfl hi
        · simp [List.lookup_cons, beq_false_of_ne hi, ih id h2]

theorem setEvent_cons {V : Type} (k0 : Nat) (v : ShotEvent V)
    (es : List (Nat × ShotEvent V)) (id : Nat) (e : ShotEvent V) :
    setEvent ((k0, v) :: es) id e
      = (if k0 = id then (k0, e) else (k0, v)) :: setEvent es id e := by
  by_cases hk0 : k0 = id <;> simp [setEvent, hk0]

theorem lookup_setEvent_self {V : Type} :
    ∀ (es : List (Nat × ShotEvent V)) (id : Nat) (e : ShotEvent V),
      (setEvent es id e).lookup id = (es.lookup id).map (fun _ => e) := by
  intro es
  induction es with
  | nil => intro id e; rfl
  | cons p es ih =>
      intro id e
      obtain ⟨k0, v⟩ := p
      rw [setEvent_cons]
      by_cases hk0 : k0 = id
      · subst hk0
        simp [List.lookup_cons]
      · have hne : id ≠ k0 := fun h => hk0 h.symm
        rw [if_neg hk0]
        simp [List.lookup_cons, beq_false_of_ne hne, ih id e]

theorem lookup_setEvent_ne {V : Type} :
    ∀ (es : List (Nat × ShotEvent V)) (id k : Nat) (e : ShotEvent V), k ≠ id →
      (setEvent es id e).lookup k = es.lookup k := by
  intro es
  induction es with
  | nil => intro id k e _; rfl
  | cons p es ih =>
      intro id k e hne
      obtain ⟨k0, v⟩ := p
      rw [setEvent_cons]
      by_cases hk0 : k0 = id
      · rw [if_pos hk0]
        have hkk0 : k ≠ k0 := fun h => hne (h.trans hk0)
        simp [List.lookup_cons, beq_false_of_ne hkk0, ih id k e hne]
      · rw [if_neg hk0]
        by_cases hkk : k = k0
        · subst hkk; simp [List.lookup_cons]
        · simp [List.lookup_cons, beq_false_of_ne hkk, ih id k e hne]

theorem sendAll_spec {V : Type} :
    ∀ (resps : List (Nat × V)) (t : ShotTable V),
      (resps.map Prod.fst).Nodup →
      (∀ p ∈ resps, p.1 ∈ t.pending) →
      (∀ p ∈ resps, t.events.lookup p.1 = some (ShotEvent.oneShot Option.none false)) →
      t.pending.Nodup →
      ∃ t2, t.sendAll resps = .ok t2
        ∧ (∀ k, k ∈ t2.pending ↔ k ∈ t.pending ∧ k ∉ resps.map Prod.fst)
        ∧ (∀ p ∈ resps, t2.events.lookup p.1 = some (ShotEvent.oneShot (some p.2) true))
        ∧ (∀ k, k ∉ resps.map Prod.fst → t2.events.lookup k = t.events.lookup k) := by
  intro resps
  induction resps with
  | nil =>
      intro t _ _ _ _
      exact ⟨t, rfl, by simp, by simp, fun _ _ => rfl⟩
  | cons p rest ih =>
      obtain ⟨id, v⟩ := p
      intro t hnd hmem hlook hpnd
      have hndl : (id :: rest.map Prod.fst).Nodup := by
        simpa only [List.map_cons] using hnd
      have hnd2 := List.nodup_cons.mp hndl
      have hid : id ∈ t.pending := hmem (id, v) (List.mem_cons_self _ _)
      have hev : t.events.lookup id = some (.oneShot Option.none false) :=
        hlook (id, v) (List.mem_cons_self _ _)
      have hsend : t.send id v
          = .ok ⟨t.pending.erase id, setEvent t.events id (.oneShot (some v) true)⟩ := by
        simp [ShotTable.send, hid, hev, ShotEvent.senderSend]
      have hne_of_mem : ∀ q ∈ rest, q.1 ≠ id := by
        intro q hq hqid
        exact hnd2.1 (hqid ▸ List.mem_map_of_mem Prod.fst hq)
      have hmem2 : ∀ q ∈ rest,
          q.1 ∈ (⟨t.pending.erase id, setEvent t.events id (.oneShot (some v) true)⟩ :
            ShotTable V).pending := by
        intro q hq
        exact (List.Nodup.mem_erase_iff hpnd).mpr
          ⟨hne_of_mem q hq, hmem q (List.mem_cons_of_mem _ hq)⟩
      have hlook2 : ∀ q ∈ rest,
          (⟨t.pending.erase id, setEvent t.events id (.oneShot (some v) true)⟩ :
            ShotTable V).events.lookup q.1 = some (.oneShot Option.none false) := by
        intro q hq
        have hne := lookup_setEvent_ne t.events id q.1 (.oneShot (some v) true)
          (hne_of_mem q hq)
        simpa [hne] using hlook q (List.mem_cons_of_mem _ hq)
      obtain ⟨t2, hrun, hp2, hl2, hpres⟩ :=
        ih ⟨t.pending.erase id, setEvent t.events id (.oneShot (some v) true)⟩
          hnd2.2 hmem2 hlook2 (hpnd.erase id)
      refine ⟨t2, ?_, ?_, ?_, ?_⟩
      · show (do
            let t2 ← t.send id v
            t2.sendAll rest) = _
        rw [hsend]
        show ShotTable.sendAll _ rest = _
        exact hrun
      · intro k
        rw [hp2 k]
        constructor
        · rintro ⟨hk1, hk2⟩
          have hk3 := (List.Nodup.mem_erase_iff hpnd).mp hk1
          refine ⟨hk3.2, ?_⟩
          simp only [List.map_cons, List.mem_cons, not_or]
          exact ⟨hk3.1, hk2⟩
        · rintro ⟨hk1, hk2⟩
          simp only [List.map_cons, List.mem_cons, not_or] at hk2
          exact ⟨(List.Nodup.mem_erase_iff hpnd).mpr ⟨hk2.1, hk1⟩, hk2.2⟩
      · intro q hq
        rcases List.mem_cons.mp hq with hq1 | hq2
        · subst hq1
          rw [hpres id hnd2.1]
          show (setEvent t.events id (.oneShot (some v) true)).lookup id = _
          rw [lookup_setEvent_self]
          rw [hev]
          rfl
        · exact hl2 q hq2
      · intro k hk
        simp only [List.map_cons, List.mem_cons, not_or] at hk
        rw [hpres k hk.2]
        exact lookup_setEvent_ne t.events id k _ hk.1

end UtilsChannel

/-- C1: for every batch of outbound requests with pairwise-distinct ids
registered in the pending-response table, and for every permutation in
which their responses are delivered through the table, every send
succeeds, the event created for each request ends up holding exactly the
response bearing that request's id, and every entry has been removed from
the table upon completion. -/
theorem shot_table_correlates_by_id {V : Type} (ids : List Nat)
    (resps : List (Nat × V)) (hnd : ids.Nodup)
    (hperm : List.Perm (resps.map Prod.fst) ids) :
    ∃ t2, (do
        let t0 ← UtilsChannel.ShotTable.registerOneShots
          (UtilsChannel.ShotTable.empty (V := V)) ids
        t0.sendAll resps) = .ok t2
      ∧ t2.pending = []
      ∧ ∀ p ∈ resps, t2.events.lookup p.1
          = some (UtilsChannel.ShotEvent.oneShot (some p.2) true) := by
  have hreg := UtilsChannel.registerOneShots_spec (V := V) ids
    UtilsChannel.ShotTable.empty (by simp [UtilsChannel.ShotTable.empty]) hnd
  have hndresp : (resps.map Prod.fst).Nodup := (hperm.nodup_iff).mpr hnd
  obtain ⟨t2, hrun, hp2, hl2, _⟩ :=
    UtilsChannel.sendAll_spec (V := V) resps
      ⟨[] ++ ids, [] ++ ids.map (fun id => (id, .oneShot Option.none false))⟩
      hndresp
      (by
        intro p hp
        simpa using hperm.mem_iff.mp (List.mem_map_of_mem Prod.fst hp))
      (by
        intro p hp
        have hpin : p.1 ∈ ids := by
          simpa using hperm.mem_iff.mp (List.mem_map_of_mem Prod.fst hp)
        simpa using UtilsChannel.lookup_map_oneShot (V := V) ids p.1 hpin)
      (by simpa using hnd)
  refine ⟨t2, ?_, ?_, hl2⟩
  · rw [hreg]
    show UtilsChannel.ShotTable.sendAll _ resps = _
    exact hrun
  · rw [List.eq_nil_iff_forall_not_mem]
    intro k hk
    have hk2 := (hp2 k).mp hk
    exact hk2.2 (hperm.mem_iff.mpr (by simpa using hk2.1))

/-- C1, witness: two requests with ids 1 and 2 whose responses arrive in
the opposite order each complete with the response bearing their own id,
and the table ends empty. -/
theorem shot_table_correlates_by_id_witness :
    ([1, 2] : List Nat).Nodup
    ∧ List.Perm (([(2, 20), (1, 10)] : List (Nat × Nat)).map Prod.fst) [1, 2]
    ∧ ∃ t2, (do
        let t0 ← UtilsChannel.ShotTable.registerOneShots
          (UtilsChannel.ShotTable.empty (V := Nat)) [1, 2]
        t0.sendAll [(2, 20), (1, 10)]) = .ok t2
      ∧ t2.pending = []
      ∧ ∀ p ∈ [((2 : Nat), (20 : Nat)), (1, 10)], t2.events.lookup p.1
          = some (UtilsChannel.ShotEvent.oneShot (some p.2) true) :=
  ⟨by decide, by decide,
   shot_table_correlates_by_id [1, 2] [(2, 20), (1, 10)] (by decide) (by decide)⟩
